import Mathlib

/- Verification of the `rat` utility (a small reimplementation of `cat`,
   source: src/main.rs) against its natural-language specification.
   Text is modelled as `List Char`; every definition below mirrors the
   corresponding Rust function. -/

namespace RatCli

/-- Model of Rust `char::from_u32`: valid unless the code point is a
    surrogate (0xD800..=0xDFFF) or exceeds 0x10FFFF. -/
def char_from_u32 (n : Nat) : Option Char :=
  if n < 55296 ∨ (57343 < n ∧ n < 1114112) then some (Char.ofNat n) else none

/-- The non-printing escape loop of `print_concatenated_files`
    (main.rs lines 117-129): a character with code point at most 31 is
    rendered as a caret followed by the character at code point + 64
    (the `None` arm of `char::from_u32` pushes nothing); any other
    character is pushed unchanged. -/
def escape_line : List Char → List Char
  | [] => []
  | ch :: rest =>
    (if ch.toNat ≤ 31 then
      match char_from_u32 (ch.toNat + 64) with
      | some c => ['^', c]
      | none => []
    else [ch]) ++ escape_line rest

/-- Model of `str::replace("\t", "^I")`: every tab becomes the two
    characters caret and I; other characters are kept. -/
def replace_tab (l : List Char) : List Char :=
  l.flatMap (fun ch => if ch = '\t' then ['^', 'I'] else [ch])

/-- Strip one carriage return from the end of a line accumulator held in
    reverse order (the CR half of a CRLF ending handled by `str::lines`). -/
def drop_final_cr : List Char → List Char
  | c :: t => if c = '\r' then t else c :: t
  | [] => []

/-- Worker for `rust_lines`; `cur` is the current line accumulated in
    reverse order. -/
def rust_lines_go : List Char → List Char → List (List Char)
  | cur, [] => if cur.isEmpty then [] else [cur.reverse]
  | cur, c :: rest =>
    if c = '\n' then (drop_final_cr cur).reverse :: rust_lines_go [] rest
    else rust_lines_go (c :: cur) rest

/-- Model of Rust `str::lines`: lines are split at newlines or CRLF
    sequences, the final line ending is optional, and a carriage return
    not followed by a newline is kept. -/
def rust_lines (s : List Char) : List (List Char) :=
  rust_lines_go [] s

/-- The `RatFlags` configuration record (main.rs lines 21-29). -/
structure RatFlags where
  output_nums : Bool
  squeeze_blank : Bool
  number_nonblank : Bool
  show_tabs : Bool
  show_ends : Bool
  show_nonprinting : Bool
deriving DecidableEq, Repr

/-- The non-printing step of the per-line pipeline (main.rs 117-129):
    when `show_nonprinting` is set the printed line is rebuilt by
    `escape_line`, otherwise the original line is kept. -/
def non_printing_step (flags : RatFlags) (line : List Char) : List Char :=
  if flags.show_nonprinting then escape_line line else line

/-- The tab step (main.rs 131-133): when `show_tabs` is set and the
    original line contains a tab, tabs in the line being printed are
    replaced by caret-I. -/
def tabs_step (flags : RatFlags) (line ltp : List Char) : List Char :=
  if flags.show_tabs && line.contains '\t' then replace_tab ltp else ltp

/-- The end-of-line step (main.rs 135-137): when `show_ends` is set a
    dollar sign is appended. -/
def ends_step (flags : RatFlags) (ltp : List Char) : List Char :=
  if flags.show_ends then ltp ++ ['$'] else ltp

/-- The full `line_to_print` computation for one line (main.rs 115-137). -/
def transform_line (flags : RatFlags) (line : List Char) : List Char :=
  ends_step flags (tabs_step flags line (non_printing_step flags line))

/-- The text printed by `println!("{}    {}", line_count, line_to_print)`:
    the decimal counter followed by four spaces and the line. -/
def counterFmt (n : Nat) : List Char :=
  (Nat.repr n).toList ++ [' ', ' ', ' ', ' ']

/-- The loop body of `print_concatenated_files` (main.rs 114-155) as a
    fold over the lines: `count` is `line_count`, `prev` is
    `previous_line_empty`.  A line whose printed form is empty while the
    previous printed line was empty is skipped under `squeeze_blank`;
    otherwise the numbering branches of lines 146-154 decide the output. -/
def process_lines (flags : RatFlags) : Nat → Bool → List (List Char) → List (List Char)
  | _, _, [] => []
  | count, prev, line :: rest =>
    if flags.squeeze_blank && (transform_line flags line).isEmpty && prev then
      process_lines flags count prev rest
    else
      if flags.output_nums && !flags.number_nonblank then
        (counterFmt count ++ transform_line flags line) ::
          process_lines flags (count + 1)
            (if flags.squeeze_blank then (transform_line flags line).isEmpty else prev) rest
      else if !line.isEmpty && flags.number_nonblank then
        (counterFmt count ++ transform_line flags line) ::
          process_lines flags (count + 1)
            (if flags.squeeze_blank then (transform_line flags line).isEmpty else prev) rest
      else
        transform_line flags line ::
          process_lines flags count
            (if flags.squeeze_blank then (transform_line flags line).isEmpty else prev) rest

/-- `print_concatenated_files` (main.rs 110-156): the list of lines
    written to standard output for the given data and flags. -/
def print_concatenated_files (data : List Char) (flags : RatFlags) : List (List Char) :=
  process_lines flags 1 false (rust_lines data)

/-- The squeeze decision of main.rs 139-144 isolated as a stage: each
    input line is paired with its printed form, and a pair is dropped
    exactly when `squeeze_blank` is set, its printed form is empty and
    the previous kept printed form was empty. -/
def keep_stage (flags : RatFlags) : Bool → List (List Char × List Char) → List (List Char × List Char)
  | _, [] => []
  | prev, p :: rest =>
    if flags.squeeze_blank && p.2.isEmpty && prev then keep_stage flags prev rest
    else p :: keep_stage flags (if flags.squeeze_blank then p.2.isEmpty else prev) rest

/-- The numbering decision of main.rs 146-154 isolated as a stage over
    (original line, printed line) pairs. -/
def number_stage (flags : RatFlags) : Nat → List (List Char × List Char) → List (List Char)
  | _, [] => []
  | count, p :: rest =>
    if flags.output_nums && !flags.number_nonblank then
      (counterFmt count ++ p.2) :: number_stage flags (count + 1) rest
    else if !p.1.isEmpty && flags.number_nonblank then
      (counterFmt count ++ p.2) :: number_stage flags (count + 1) rest
    else
      p.2 :: number_stage flags count rest

/-- Spec-side description of the pipeline in `number_nonblank` mode,
    written from the specification text: after the squeeze step, only
    lines whose original (pre-escape) content is non-empty receive the
    counter prefix and increment the counter; empty lines print with no
    prefix and no increment.  `output_nums` is never consulted. -/
def numberNonBlank_spec (flags : RatFlags) : Nat → Bool → List (List Char) → List (List Char)
  | _, _, [] => []
  | count, prev, line :: rest =>
    if flags.squeeze_blank && (transform_line flags line).isEmpty && prev then
      numberNonBlank_spec flags count prev rest
    else
      if line.isEmpty then
        transform_line flags line ::
          numberNonBlank_spec flags count
            (if flags.squeeze_blank then (transform_line flags line).isEmpty else prev) rest
      else
        (counterFmt count ++ transform_line flags line) ::
          numberNonBlank_spec flags (count + 1)
            (if flags.squeeze_blank then (transform_line flags line).isEmpty else prev) rest

/-- The two error kinds of main.rs 3-7. -/
inductive RatErrorType where
  | InvalidFlag : RatErrorType
  | NoFileFound : RatErrorType
deriving DecidableEq, Repr

/-- `RatError` (main.rs 9-13): an error kind plus a message. -/
structure RatError where
  error : RatErrorType
  message : List Char
deriving DecidableEq, Repr

/-- `RatArgs` (main.rs 31-36). -/
structure RatArgs where
  flags : RatFlags
  paths : List String
  error : Option RatError
deriving DecidableEq, Repr

/-- `RatArgs::new` (main.rs 38-53): all flags off, no paths, no error. -/
def RatArgs.new : RatArgs :=
  ⟨⟨false, false, false, false, false, false⟩, [], none⟩

/-- A single-quote character, used in the error texts of the source. -/
def squote : Char := Char.ofNat 39

/-- The message built at main.rs 78: Invalid flag, then the offending
    (dash-trimmed) token in single quotes. -/
def invalid_flag_msg (flag : String) : List Char :=
  "Invalid flag ".toList ++ [squote] ++ flag.toList ++ [squote]

/-- The hint printed by `handle_error` for invalid flags (main.rs 196). -/
def help_hint : List Char :=
  "Try ".toList ++ [squote] ++ "rat --help".toList ++ [squote] ++ " for more information.".toList

/-- The usage string printed by `display_help` (main.rs 182). -/
def usage_line : List Char :=
  "Usage: rat [OPTION]... [FILE]...".toList

/-- The crate version baked in by `env!("CARGO_PKG_VERSION")`; the
    manifest is not part of src/, and no claim depends on its text. -/
def cargo_pkg_version : List Char := "0.1.0".toList

/-- The three lines printed by `display_version` (main.rs 186-191). -/
def version_lines : List (List Char) :=
  ["rat v".toList ++ cargo_pkg_version,
   "Copyright (c) 2022 Harrison Grieve".toList,
   "License MIT: https://opensource.org/licenses/MIT".toList]

/-- Model of Rust `str::starts_with` for a string pattern. -/
def str_starts_with (s p : String) : Bool :=
  p.toList.isPrefixOf s.toList

/-- Model of `str::trim_start_matches("-")`: remove every leading dash. -/
def trim_dashes (s : String) : String :=
  String.mk (s.toList.dropWhile (fun c => c = '-'))

/-- Outcome of `RatArgs::parse`: either the populated `RatArgs`, or an
    immediate process exit caused by `display_help` or `display_version`
    being called from inside the match (main.rs 73-74). -/
inductive ParseOutcome where
  | done : RatArgs → ParseOutcome
  | helpExit : ParseOutcome
  | versionExit : ParseOutcome
deriving DecidableEq, Repr

/-- The argument loop of `RatArgs::parse` (main.rs 61-85): a lone dash is
    a path, a token starting with a dash is matched (after trimming all
    leading dashes) against the flag table, an unrecognized flag
    overwrites `error`, and anything else is a path. -/
def parse_loop : RatArgs → List String → ParseOutcome
  | r, [] => ParseOutcome.done r
  | r, arg :: rest =>
    if arg = "-" then
      parse_loop { r with paths := r.paths ++ [arg] } rest
    else if str_starts_with arg "-" || str_starts_with arg "--" then
      if trim_dashes arg = "n" ∨ trim_dashes arg = "number" then
        parse_loop { r with flags := { r.flags with output_nums := true } } rest
      else if trim_dashes arg = "s" ∨ trim_dashes arg = "squeeze-blank" then
        parse_loop { r with flags := { r.flags with squeeze_blank := true } } rest
      else if trim_dashes arg = "b" ∨ trim_dashes arg = "number-nonblank" then
        parse_loop { r with flags := { r.flags with number_nonblank := true } } rest
      else if trim_dashes arg = "T" ∨ trim_dashes arg = "show-tabs" then
        parse_loop { r with flags := { r.flags with show_tabs := true } } rest
      else if trim_dashes arg = "E" ∨ trim_dashes arg = "show-ends" then
        parse_loop { r with flags := { r.flags with show_ends := true } } rest
      else if trim_dashes arg = "v" ∨ trim_dashes arg = "show-nonprinting" then
        parse_loop { r with flags := { r.flags with show_nonprinting := true } } rest
      else if trim_dashes arg = "h" ∨ trim_dashes arg = "help" then
        ParseOutcome.helpExit
      else if trim_dashes arg = "version" then
        ParseOutcome.versionExit
      else
        parse_loop
          { r with error := some ⟨RatErrorType.InvalidFlag, invalid_flag_msg (trim_dashes arg)⟩ } rest
    else
      parse_loop { r with paths := r.paths ++ [arg] } rest

/-- `RatArgs::parse` (main.rs 56-88): the first element of `args_vec` is
    the program name and is skipped. -/
def RatArgs.parse (args_vec : List String) : ParseOutcome :=
  parse_loop RatArgs.new (args_vec.drop 1)

/-- Observable result of one process run: either a normal exit carrying
    the standard-output lines, the standard-error lines and the exit
    status, or a dive into the interactive echo loop (which never
    returns) carrying the output produced before it was entered. -/
inductive ProcResult where
  | exited : List (List Char) → List (List Char) → Nat → ProcResult
  | repl : List (List Char) → List (List Char) → ProcResult
deriving DecidableEq, Repr

/-- `handle_error` (main.rs 193-199): the error-stream lines it prints,
    namely the message, followed for `InvalidFlag` by the help hint. -/
def handle_error (e : RatError) : List (List Char) :=
  [e.message] ++
    (match e.error with
      | RatErrorType.InvalidFlag => [help_hint]
      | RatErrorType.NoFileFound => [])

/-- The path loop of `run` (main.rs 91-108).  `fs` models
    `fs::read_to_string`: either the file text or the displayed I/O
    error.  `acc` is `concatenated_files`, `errs` the error lines printed
    so far.  A dash prints the accumulated text and enters the echo loop,
    which never returns; an unreadable path reports the underlying error
    (via `handle_error`, which adds no hint for `NoFileFound`) and the
    loop continues; after the loop the accumulated text is printed. -/
def run_loop (fs : String → Except (List Char) (List Char)) (flags : RatFlags) :
    List String → List Char → List (List Char) → ProcResult
  | [], acc, errs => ProcResult.exited (print_concatenated_files acc flags) errs 0
  | path :: rest, acc, errs =>
    if path = "-" then
      ProcResult.repl (print_concatenated_files acc flags) errs
    else
      match fs path with
      | Except.ok data => run_loop fs flags rest (acc ++ data) errs
      | Except.error e => run_loop fs flags rest acc (errs ++ [e])

/-- `run` (main.rs 91-108). -/
def run (fs : String → Except (List Char) (List Char)) (flags : RatFlags)
    (paths : List String) : ProcResult :=
  run_loop fs flags paths [] []

/-- `choose_your_adventure` (main.rs 173-179): no paths means the echo
    loop, otherwise `run`. -/
def choose_your_adventure (fs : String → Except (List Char) (List Char))
    (args : RatArgs) : ProcResult :=
  if args.paths.isEmpty then ProcResult.repl [] []
  else run fs args.flags args.paths

/-- `main` (main.rs 201-208): parse, then either report the stored error
    (and fall off the end of `main`, exit status 0), or dispatch; the
    help and version flags exit with status 0 from inside the parser. -/
def rat_main (fs : String → Except (List Char) (List Char))
    (argv : List String) : ProcResult :=
  match RatArgs.parse argv with
  | ParseOutcome.helpExit => ProcResult.exited [usage_line] [] 0
  | ParseOutcome.versionExit => ProcResult.exited version_lines [] 0
  | ParseOutcome.done r =>
    match r.error with
    | some e => ProcResult.exited [] (handle_error e) 0
    | none => choose_your_adventure fs r

/-- `enter_repl` (main.rs 158-171), run for `k` loop iterations: `chunks`
    is the successive text appended to the buffer by `read_line` (a full
    line including its newline; nothing once input is exhausted).  Each
    iteration prints the buffer followed by the newline `println!`
    appends, then clears the buffer. -/
def enter_repl_outputs : Nat → List (List Char) → List (List Char)
  | 0, _ => []
  | k + 1, [] => ['\n'] :: enter_repl_outputs k []
  | k + 1, c :: rest => (c ++ ['\n']) :: enter_repl_outputs k rest

/-- A token is treated as a flag by the parser when it is not a lone dash
    and starts with a dash (main.rs 62-64). -/
def is_flag_token (arg : String) : Bool :=
  (arg != "-") && (str_starts_with arg "-" || str_starts_with arg "--")

/-- The flag names accepted by the match at main.rs 66-74. -/
def is_recognized (f : String) : Bool :=
  f == "n" || f == "number" || f == "s" || f == "squeeze-blank" ||
  f == "b" || f == "number-nonblank" || f == "T" || f == "show-tabs" ||
  f == "E" || f == "show-ends" || f == "v" || f == "show-nonprinting" ||
  f == "h" || f == "help" || f == "version"

/-- A flag token that makes the parser exit the process immediately. -/
def is_exit_flag (arg : String) : Bool :=
  is_flag_token arg &&
    (trim_dashes arg == "h" || trim_dashes arg == "help" || trim_dashes arg == "version")

/-- A flag token that falls through to the `default` arm at main.rs 75. -/
def is_invalid_flag (arg : String) : Bool :=
  is_flag_token arg && !(is_recognized (trim_dashes arg))

/-- The `error` field left in `RatArgs` after the remaining arguments are
    parsed, starting from stored error `e`: the last invalid flag wins. -/
def final_error (e : Option RatError) (args : List String) : Option RatError :=
  match (args.filter is_invalid_flag).getLast? with
  | some t => some ⟨RatErrorType.InvalidFlag, invalid_flag_msg (trim_dashes t)⟩
  | none => e

/-- Flags with only `number_nonblank` set. -/
def nbFlags : RatFlags := ⟨false, false, true, false, false, false⟩

/-- Flags with only `squeeze_blank` set. -/
def sqFlags : RatFlags := ⟨false, true, false, false, false, false⟩

/-- Flags with only `show_nonprinting` set. -/
def vFlags : RatFlags := ⟨false, false, false, false, false, true⟩

/-- Flags with only `output_nums` set. -/
def numFlags : RatFlags := ⟨true, false, false, false, false, false⟩

/-- Flags with only `show_ends` set. -/
def endsFlags : RatFlags := ⟨false, false, false, false, true, false⟩

/-- All flags off. -/
def noFlags : RatFlags := ⟨false, false, false, false, false, false⟩

/-- A file system on which every read fails. -/
def fs0 : String → Except (List Char) (List Char) :=
  fun _ => Except.error ("read failed".toList)

/-- A file system with one readable file named good. -/
def fs1 : String → Except (List Char) (List Char) :=
  fun p => if p = "good" then Except.ok ("x\n".toList)
    else Except.error ("bad: No such file or directory".toList)

/-- A file system with two readable files. -/
def fs2 : String → Except (List Char) (List Char) :=
  fun p => if p = "a.txt" then Except.ok ("x\ny\n".toList)
    else if p = "b.txt" then Except.ok ("z\n".toList)
    else Except.error ("nope".toList)

/- ------------------------------------------------------------------ -/
/- Theorems                                                            -/
/- ------------------------------------------------------------------ -/

theorem transform_line_upd_output_nums (flags : RatFlags) (b : Bool) (line : List Char) :
    transform_line { flags with output_nums := b } line = transform_line flags line := rfl

theorem process_eq_stages (flags : RatFlags) :
    ∀ (lines : List (List Char)) (count : Nat) (prev : Bool),
      process_lines flags count prev lines
        = number_stage flags count
            (keep_stage flags prev (lines.map (fun l => (l, transform_line flags l)))) := by
  intro lines
  induction lines with
  | nil => intro count prev; rfl
  | cons line rest ih =>
    intro count prev
    by_cases hsq : (flags.squeeze_blank && (transform_line flags line).isEmpty && prev) = true
    · simp [process_lines, keep_stage, hsq, ih]
    · by_cases h1 : (flags.output_nums && !flags.number_nonblank) = true
      · simp [process_lines, keep_stage, number_stage, hsq, h1, ih]
      · by_cases h2 : (!line.isEmpty && flags.number_nonblank) = true
        · simp [process_lines, keep_stage, number_stage, hsq, h1, h2, ih]
        · simp [process_lines, keep_stage, number_stage, hsq, h1, h2, ih]

theorem process_nb_spec (flags : RatFlags) (h : flags.number_nonblank = true) :
    ∀ (lines : List (List Char)) (count : Nat) (prev : Bool),
      process_lines flags count prev lines = numberNonBlank_spec flags count prev lines := by
  intro lines
  induction lines with
  | nil => intro count prev; rfl
  | cons line rest ih =>
    intro count prev
    by_cases hsq : (flags.squeeze_blank && (transform_line flags line).isEmpty && prev) = true
    · simp [process_lines, numberNonBlank_spec, hsq, ih]
    · by_cases he : line.isEmpty = true
      · simp [process_lines, numberNonBlank_spec, hsq, h, he, ih]
      · simp [process_lines, numberNonBlank_spec, hsq, h, he, ih]

theorem nb_spec_upd (flags : RatFlags) (b : Bool) :
    ∀ (lines : List (List Char)) (count : Nat) (prev : Bool),
      numberNonBlank_spec { flags with output_nums := b } count prev lines
        = numberNonBlank_spec flags count prev lines := by
  intro lines
  induction lines with
  | nil => intro count prev; rfl
  | cons line rest ih =>
    intro count prev
    simp only [numberNonBlank_spec, transform_line_upd_output_nums]
    simp [ih]

/-- Claim C1: with `number_nonblank` set, the pipeline numbers exactly the
    lines whose original (pre-escape) content is non-empty, with the
    counter plus four spaces, incrementing only there; `output_nums` is
    irrelevant (`number_nonblank` wins); and on the spec example the
    blank line is left unnumbered. -/
theorem C1_number_nonblank (flags : RatFlags) (h : flags.number_nonblank = true)
    (data : List Char) :
    print_concatenated_files data flags = numberNonBlank_spec flags 1 false (rust_lines data)
    ∧ (∀ b : Bool, print_concatenated_files data { flags with output_nums := b }
        = print_concatenated_files data flags)
    ∧ print_concatenated_files ("a\n\nb\n".toList) nbFlags
        = [counterFmt 1 ++ ['a'], [], counterFmt 2 ++ ['b']] := by
  refine ⟨process_nb_spec flags h (rust_lines data) 1 false, ?_, by decide⟩
  intro b
  have h2 : ({ flags with output_nums := b } : RatFlags).number_nonblank = true := h
  calc print_concatenated_files data { flags with output_nums := b }
      = numberNonBlank_spec { flags with output_nums := b } 1 false (rust_lines data) :=
        process_nb_spec _ h2 (rust_lines data) 1 false
    _ = numberNonBlank_spec flags 1 false (rust_lines data) :=
        nb_spec_upd flags b (rust_lines data) 1 false
    _ = print_concatenated_files data flags :=
        (process_nb_spec flags h (rust_lines data) 1 false).symm

theorem C1_witness :
    print_concatenated_files ("a\n\nb\n".toList) nbFlags
      = numberNonBlank_spec nbFlags 1 false (rust_lines ("a\n\nb\n".toList)) :=
  (C1_number_nonblank nbFlags rfl ("a\n\nb\n".toList)).1

theorem keep_stage_chain (flags : RatFlags) (hs : flags.squeeze_blank = true) :
    ∀ (ps : List (List Char × List Char)) (prev : Bool),
      (prev = true → ∀ q ∈ (keep_stage flags prev ps).head?, q.2.isEmpty = false)
      ∧ List.Chain' (fun a b : List Char × List Char =>
          ¬(a.2.isEmpty = true ∧ b.2.isEmpty = true)) (keep_stage flags prev ps) := by
  intro ps
  induction ps with
  | nil =>
    intro prev
    refine ⟨fun _ q hq => ?_, by simp [keep_stage]⟩
    simp [keep_stage] at hq
  | cons p rest ih =>
    intro prev
    by_cases hc : (flags.squeeze_blank && p.2.isEmpty && prev) = true
    · simpa [keep_stage, hc] using ih prev
    · have hc2 : (p.2.isEmpty && prev) = false := by
        rw [hs, Bool.true_and] at hc
        exact Bool.eq_false_iff.mpr hc
      have hkeep : keep_stage flags prev (p :: rest)
          = p :: keep_stage flags p.2.isEmpty rest := by
        simp [keep_stage, hs, Bool.true_and, hc2]
      constructor
      · intro hprev q hq
        rw [hkeep] at hq
        simp only [List.head?_cons, Option.mem_def, Option.some_inj] at hq
        subst hq
        rw [hprev, Bool.and_true] at hc2
        exact hc2
      · rw [hkeep, List.chain'_cons']
        refine ⟨?_, (ih p.2.isEmpty).2⟩
        intro q hq hcontra
        obtain ⟨hp2, hq2⟩ := hcontra
        have hqn := (ih p.2.isEmpty).1 hp2 q hq
        rw [hq2] at hqn
        exact Bool.noConfusion hqn

/-- Claim C2: with `squeeze_blank` set the output factors through the
    keep stage, which drops a line exactly when its post-transform
    content is empty and the previous kept line's content was empty
    (dropped lines are neither printed nor counted, since numbering runs
    over the kept lines only); among the kept lines no two consecutive
    post-transform contents are empty, so every run of blanks collapses
    to one; and the spec example collapses three blank lines to one. -/
theorem C2_squeeze_blank (flags : RatFlags) (h : flags.squeeze_blank = true)
    (data : List Char) :
    print_concatenated_files data flags
      = number_stage flags 1
          (keep_stage flags false ((rust_lines data).map (fun l => (l, transform_line flags l))))
    ∧ List.Chain' (fun a b : List Char × List Char =>
        ¬(a.2.isEmpty = true ∧ b.2.isEmpty = true))
        (keep_stage flags false ((rust_lines data).map (fun l => (l, transform_line flags l))))
    ∧ print_concatenated_files ("a\n\n\n\nb\n".toList) sqFlags = [['a'], [], ['b']] :=
  ⟨process_eq_stages flags (rust_lines data) 1 false,
   (keep_stage_chain flags h ((rust_lines data).map (fun l => (l, transform_line flags l))) false).2,
   by decide⟩

theorem C2_witness :
    print_concatenated_files ("a\n\n\n\nb\n".toList) sqFlags
      = number_stage sqFlags 1
          (keep_stage sqFlags false
            ((rust_lines ("a\n\n\n\nb\n".toList)).map (fun l => (l, transform_line sqFlags l)))) :=
  (C2_squeeze_blank sqFlags rfl ("a\n\n\n\nb\n".toList)).1

/-- Claim C3: whenever `show_nonprinting` is set, the non-printing step
    maps each character with code point at most 31 to a caret followed by
    the character at code point + 64 and passes every other character
    through unchanged; in particular code point 1 renders as caret-A. -/
theorem C3_show_nonprinting :
    (∀ (flags : RatFlags) (line : List Char), flags.show_nonprinting = true →
      non_printing_step flags line
        = line.flatMap (fun ch =>
            if ch.toNat ≤ 31 then ['^', Char.ofNat (ch.toNat + 64)] else [ch]))
    ∧ escape_line [Char.ofNat 1] = ['^', 'A'] := by
  constructor
  · intro flags line h
    simp only [non_printing_step, h, if_true]
    induction line with
    | nil => rfl
    | cons ch rest ih =>
      by_cases hc : ch.toNat ≤ 31
      · have hv : char_from_u32 (ch.toNat + 64) = some (Char.ofNat (ch.toNat + 64)) := by
          unfold char_from_u32
          rw [if_pos (Or.inl (by omega))]
        simp [escape_line, hc, hv, ih, List.flatMap_cons]
      · simp [escape_line, hc, ih, List.flatMap_cons]
  · decide

theorem C3_witness :
    non_printing_step vFlags ['a', Char.ofNat 1]
      = (['a', Char.ofNat 1] : List Char).flatMap (fun ch =>
          if ch.toNat ≤ 31 then ['^', Char.ofNat (ch.toNat + 64)] else [ch]) :=
  C3_show_nonprinting.1 vFlags ['a', Char.ofNat 1] rfl

/-- Claim C9: for every character with code point at most 31 the value
    code point + 64 is a valid character (so the `None` fallback of the
    escape loop is unreachable), and the escape step never discards
    input: its output length is the input length plus one extra caret per
    control character. -/
theorem C9_no_discard :
    (∀ ch : Char, ch.toNat ≤ 31 →
      char_from_u32 (ch.toNat + 64) = some (Char.ofNat (ch.toNat + 64)))
    ∧ (∀ l : List Char, (escape_line l).length
        = l.length + l.countP (fun ch => decide (ch.toNat ≤ 31))) := by
  constructor
  · intro ch h
    unfold char_from_u32
    rw [if_pos (Or.inl (by omega))]
  · intro l
    induction l with
    | nil => rfl
    | cons ch rest ih =>
      by_cases hc : ch.toNat ≤ 31
      · have hv : char_from_u32 (ch.toNat + 64) = some (Char.ofNat (ch.toNat + 64)) := by
          unfold char_from_u32
          rw [if_pos (Or.inl (by omega))]
        simp [escape_line, hc, hv, ih, List.countP_cons]
        omega
      · simp [escape_line, hc, ih, List.countP_cons]
        omega

theorem C9_witness :
    char_from_u32 ((Char.ofNat 9).toNat + 64)
      = some (Char.ofNat ((Char.ofNat 9).toNat + 64)) :=
  C9_no_discard.1 (Char.ofNat 9) (by decide)

theorem ends_step_nonempty (flags : RatFlags) (h : flags.show_ends = true) (line : List Char) :
    (transform_line flags line).isEmpty = false := by
  simp [transform_line, ends_step, h]

theorem process_squeeze_noop (flags : RatFlags) (h : flags.show_ends = true) :
    ∀ (lines : List (List Char)) (count : Nat),
      process_lines { flags with squeeze_blank := true } count false lines
        = process_lines { flags with squeeze_blank := false } count false lines := by
  intro lines
  induction lines with
  | nil => intro count; rfl
  | cons line rest ih =>
    intro count
    have hne : (transform_line flags line).isEmpty = false := ends_step_nonempty flags h line
    have ht : ∀ b : Bool, transform_line { flags with squeeze_blank := b } line
        = transform_line flags line := fun _ => rfl
    simp [process_lines, ht, hne, ih]

/-- Claim C10: when `show_ends` is set, `squeeze_blank` has no effect:
    every printed line ends with the appended dollar sign, so the
    emptiness test of the squeeze step never fires. -/
theorem C10_show_ends_defeats_squeeze (flags : RatFlags) (h : flags.show_ends = true)
    (data : List Char) :
    print_concatenated_files data { flags with squeeze_blank := true }
      = print_concatenated_files data { flags with squeeze_blank := false } :=
  process_squeeze_noop flags h (rust_lines data) 1

theorem C10_witness :
    print_concatenated_files ("a\n\n\nb\n".toList) { endsFlags with squeeze_blank := true }
      = print_concatenated_files ("a\n\n\nb\n".toList) { endsFlags with squeeze_blank := false } :=
  C10_show_ends_defeats_squeeze endsFlags rfl ("a\n\n\nb\n".toList)

/-- Claim C8 counterexample: the echo loop does not write a read line
    back unchanged: the buffer already holds the line's newline and the
    printer appends another, so reading the single line a-newline prints
    a-newline-newline. -/
theorem C8_cex_extra_newline :
    enter_repl_outputs 1 [['a', '\n']] = [['a', '\n', '\n']]
    ∧ (['a', '\n', '\n'] : List Char) ≠ (['a', '\n'] : List Char) := by
  exact ⟨rfl, by decide⟩

/-- Claim C8 (amended): in `k` iterations the echo loop prints each read
    chunk followed by one extra newline, in order and otherwise
    unmodified; once input is exhausted it keeps printing bare newlines
    (it does not terminate on exhaustion). -/
theorem C8_echo_with_extra_newline :
    ∀ (k : Nat) (chunks : List (List Char)),
      enter_repl_outputs k chunks
        = (chunks.take k ++ List.replicate (k - chunks.length) []).map (fun c => c ++ ['\n']) := by
  intro k
  induction k with
  | zero => intro chunks; simp [enter_repl_outputs]
  | succ k ih =>
    intro chunks
    cases chunks with
    | nil => simp [enter_repl_outputs, ih, List.replicate_succ]
    | cons c rest =>
      simp [enter_repl_outputs, ih, List.take_succ_cons, Nat.succ_sub_succ]

theorem number_stage_all (flags : RatFlags) (h1 : flags.output_nums = true)
    (h2 : flags.number_nonblank = false) :
    ∀ (ps : List (List Char × List Char)) (count : Nat),
      number_stage flags count ps = ps.mapIdx (fun i p => counterFmt (count + i) ++ p.2) := by
  intro ps
  induction ps with
  | nil => intro count; simp [number_stage]
  | cons p rest ih =>
    intro count
    have hcond : (flags.output_nums && !flags.number_nonblank) = true := by
      rw [h1, h2]; rfl
    rw [List.mapIdx_cons]
    simp only [number_stage, hcond, if_true]
    rw [ih (count + 1)]
    congr 1
    have hfun : (fun (i : Nat) (p : List Char × List Char) => counterFmt (count + 1 + i) ++ p.2)
        = (fun (i : Nat) (p : List Char × List Char) => counterFmt (count + (i + 1)) ++ p.2) := by
      funext i p
      have hadd : count + 1 + i = count + (i + 1) := by omega
      rw [hadd]
    rw [hfun]

theorem run_loop_no_dash (fs : String → Except (List Char) (List Char)) (flags : RatFlags) :
    ∀ (paths : List String) (acc : List Char) (errs : List (List Char)), "-" ∉ paths →
      run_loop fs flags paths acc errs
        = ProcResult.exited
            (print_concatenated_files
              (acc ++ (paths.map (fun p => (fs p).toOption.getD [])).flatten) flags)
            (errs ++ paths.filterMap (fun p =>
              match fs p with | Except.ok _ => none | Except.error e => some e))
            0 := by
  intro paths
  induction paths with
  | nil => intro acc errs _; simp [run_loop]
  | cons p rest ih =>
    intro acc errs hd
    have hp : ¬(p = "-") := by
      intro hcontra
      exact hd (by rw [hcontra]; exact List.mem_cons_self _ _)
    have hd2 : "-" ∉ rest := fun hm => hd (List.mem_cons_of_mem _ hm)
    cases hfs : fs p with
    | ok data =>
      have hstep : run_loop fs flags (p :: rest) acc errs
          = run_loop fs flags rest (acc ++ data) errs := by
        simp [run_loop, hp, hfs]
      rw [hstep, ih (acc ++ data) errs hd2]
      simp [hfs, List.filterMap_cons, List.append_assoc, Except.toOption]
    | error e =>
      have hstep : run_loop fs flags (p :: rest) acc errs
          = run_loop fs flags rest acc (errs ++ [e]) := by
        simp [run_loop, hp, hfs]
      rw [hstep, ih acc (errs ++ [e]) hd2]
      simp [hfs, List.filterMap_cons, List.append_assoc, Except.toOption]

theorem filterMap_err_nil (fs : String → Except (List Char) (List Char)) :
    ∀ (paths : List String), (∀ p ∈ paths, (fs p).isOk = true) →
      paths.filterMap (fun p =>
        match fs p with | Except.ok _ => none | Except.error e => some e) = [] := by
  intro paths
  induction paths with
  | nil => intro _; rfl
  | cons p rest ih =>
    intro hall
    have hp := hall p (List.mem_cons_self p rest)
    cases hfs : fs p with
    | ok data =>
      simp only [List.filterMap_cons, hfs]
      exact ih (fun q hq => hall q (List.mem_cons_of_mem _ hq))
    | error e =>
      exfalso
      rw [hfs] at hp
      simp [Except.isOk, Except.toBool] at hp

/-- Claim C4: with `output_nums` set and `number_nonblank` clear, running
    on a dash-free list of readable inputs prints, for the concatenation
    of all inputs in list order, every kept line prefixed by the counter
    (1 plus its position) and four spaces: the counter starts at 1, goes
    up by one per emitted line, and runs across file boundaries because a
    single concatenated text is numbered once. -/
theorem C4_number_all (fs : String → Except (List Char) (List Char)) (flags : RatFlags)
    (paths : List String)
    (h1 : flags.output_nums = true) (h2 : flags.number_nonblank = false)
    (hd : "-" ∉ paths) (hr : ∀ p ∈ paths, (fs p).isOk = true) :
    run fs flags paths
      = ProcResult.exited
          ((keep_stage flags false
              ((rust_lines ((paths.map (fun p => (fs p).toOption.getD [])).flatten)).map
                (fun l => (l, transform_line flags l)))).mapIdx
            (fun i p => counterFmt (1 + i) ++ p.2))
          [] 0 := by
  unfold run
  rw [run_loop_no_dash fs flags paths [] [] hd, filterMap_err_nil fs paths hr]
  simp only [List.nil_append, List.append_nil, print_concatenated_files]
  rw [process_eq_stages flags _ 1 false, number_stage_all flags h1 h2 _ 1]

theorem C4_witness :
    run fs2 numFlags ["a.txt", "b.txt"]
      = ProcResult.exited
          ((keep_stage numFlags false
              ((rust_lines (((["a.txt", "b.txt"] : List String).map
                  (fun p => (fs2 p).toOption.getD [])).flatten)).map
                (fun l => (l, transform_line numFlags l)))).mapIdx
            (fun i p => counterFmt (1 + i) ++ p.2))
          [] 0 :=
  C4_number_all fs2 numFlags ["a.txt", "b.txt"] rfl rfl (by decide) (by decide)

/-- Claim C6 counterexample: with the input list bad, dash, good (bad
    unreadable, good readable), the run diverts into the echo loop at the
    dash, so good is never attempted and its content is never printed:
    the result is identical to running without good at all, while without
    the dash good is read and printed after bad's error. -/
theorem C6_cex_dash_aborts :
    (fs1 "good").isOk = true
    ∧ run fs1 noFlags ["bad", "-", "good"] = run fs1 noFlags ["bad", "-"]
    ∧ run fs1 noFlags ["bad", "-", "good"]
        = ProcResult.repl [] ["bad: No such file or directory".toList]
    ∧ run fs1 noFlags ["bad", "good"]
        = ProcResult.exited [['x']] ["bad: No such file or directory".toList] 0 :=
  ⟨rfl, by decide, by decide, by decide⟩

/-- Claim C6 (amended): on a dash-free input list an unreadable path is
    non-fatal: its error text goes to the error stream in list order,
    every input is still attempted, and the concatenation of exactly the
    successfully read contents is transformed and printed, so an
    unreadable first path does not abort a later valid one. -/
theorem C6_unreadable_nonfatal (fs : String → Except (List Char) (List Char))
    (flags : RatFlags) (paths : List String) (hd : "-" ∉ paths) :
    run fs flags paths
      = ProcResult.exited
          (print_concatenated_files
            ((paths.map (fun p => (fs p).toOption.getD [])).flatten) flags)
          (paths.filterMap (fun p =>
            match fs p with | Except.ok _ => none | Except.error e => some e))
          0 := by
  unfold run
  rw [run_loop_no_dash fs flags paths [] [] hd]
  simp

theorem C6_witness :
    run fs1 noFlags ["bad", "good"]
      = ProcResult.exited
          (print_concatenated_files
            (((["bad", "good"] : List String).map (fun p => (fs1 p).toOption.getD [])).flatten)
            noFlags)
          ((["bad", "good"] : List String).filterMap (fun p =>
            match fs1 p with | Except.ok _ => none | Except.error e => some e))
          0 :=
  C6_unreadable_nonfatal fs1 noFlags ["bad", "good"] (by decide)

theorem invalid_flag_false_of_recognized (arg : String)
    (h : is_recognized (trim_dashes arg) = true) : is_invalid_flag arg = false := by
  unfold is_invalid_flag
  rw [h]
  simp

theorem final_error_cons_false (e : Option RatError) (a : String) (args : List String)
    (h : is_invalid_flag a = false) :
    final_error e (a :: args) = final_error e args := by
  simp [final_error, List.filter_cons, h]

theorem final_error_cons_true (e : Option RatError) (a : String) (args : List String)
    (h : is_invalid_flag a = true) :
    final_error e (a :: args)
      = final_error (some ⟨RatErrorType.InvalidFlag, invalid_flag_msg (trim_dashes a)⟩) args := by
  simp only [final_error, List.filter_cons, h, if_true]
  cases hfl : args.filter is_invalid_flag with
  | nil => simp [List.getLast?_singleton]
  | cons b l =>
    rw [List.getLast?_cons_cons]
    cases hbl : (b :: l).getLast? with
    | none => simp [List.getLast?_eq_none_iff] at hbl
    | some t => rfl

theorem parse_loop_no_exit :
    ∀ (args : List String) (r : RatArgs), (∀ a ∈ args, is_exit_flag a = false) →
      ∃ r2 : RatArgs, parse_loop r args = ParseOutcome.done r2
        ∧ r2.error = final_error r.error args := by
  intro args
  induction args with
  | nil =>
    intro r _
    exact ⟨r, rfl, rfl⟩
  | cons arg rest ih =>
    intro r hex
    have hexr : ∀ a ∈ rest, is_exit_flag a = false :=
      fun a ha => hex a (List.mem_cons_of_mem _ ha)
    have hexa : is_exit_flag arg = false := hex arg (List.mem_cons_self _ _)
    by_cases hc0 : arg = "-"
    · have hinv : is_invalid_flag arg = false := by rw [hc0]; decide
      obtain ⟨r2, heq, herr⟩ := ih { r with paths := r.paths ++ [arg] } hexr
      refine ⟨r2, ?_, ?_⟩
      · rw [← heq]; simp only [parse_loop]; rw [if_pos hc0]
      · rw [final_error_cons_false r.error arg rest hinv]; exact herr
    · by_cases hc1 : (str_starts_with arg "-" || str_starts_with arg "--") = true
      · have hft : is_flag_token arg = true := by
          unfold is_flag_token
          have hne : (arg != "-") = true := bne_iff_ne.mpr hc0
          rw [hne, hc1]
          rfl
        by_cases hc2 : trim_dashes arg = "n" ∨ trim_dashes arg = "number"
        · have hinv : is_invalid_flag arg = false := by
            apply invalid_flag_false_of_recognized
            rcases hc2 with h | h <;> rw [h] <;> decide
          obtain ⟨r2, heq, herr⟩ :=
            ih { r with flags := { r.flags with output_nums := true } } hexr
          refine ⟨r2, ?_, ?_⟩
          · rw [← heq]; simp only [parse_loop]; rw [if_neg hc0, if_pos hc1, if_pos hc2]
          · rw [final_error_cons_false r.error arg rest hinv]; exact herr
        · by_cases hc3 : trim_dashes arg = "s" ∨ trim_dashes arg = "squeeze-blank"
          · have hinv : is_invalid_flag arg = false := by
              apply invalid_flag_false_of_recognized
              rcases hc3 with h | h <;> rw [h] <;> decide
            obtain ⟨r2, heq, herr⟩ :=
              ih { r with flags := { r.flags with squeeze_blank := true } } hexr
            refine ⟨r2, ?_, ?_⟩
            · rw [← heq]; simp only [parse_loop]
              rw [if_neg hc0, if_pos hc1, if_neg hc2, if_pos hc3]
            · rw [final_error_cons_false r.error arg rest hinv]; exact herr
          · by_cases hc4 : trim_dashes arg = "b" ∨ trim_dashes arg = "number-nonblank"
            · have hinv : is_invalid_flag arg = false := by
                apply invalid_flag_false_of_recognized
                rcases hc4 with h | h <;> rw [h] <;> decide
              obtain ⟨r2, heq, herr⟩ :=
                ih { r with flags := { r.flags with number_nonblank := true } } hexr
              refine ⟨r2, ?_, ?_⟩
              · rw [← heq]; simp only [parse_loop]
                rw [if_neg hc0, if_pos hc1, if_neg hc2, if_neg hc3, if_pos hc4]
              · rw [final_error_cons_false r.error arg rest hinv]; exact herr
            · by_cases hc5 : trim_dashes arg = "T" ∨ trim_dashes arg = "show-tabs"
              · have hinv : is_invalid_flag arg = false := by
                  apply invalid_flag_false_of_recognized
                  rcases hc5 with h | h <;> rw [h] <;> decide
                obtain ⟨r2, heq, herr⟩ :=
                  ih { r with flags := { r.flags with show_tabs := true } } hexr
                refine ⟨r2, ?_, ?_⟩
                · rw [← heq]; simp only [parse_loop]
                  rw [if_neg hc0, if_pos hc1, if_neg hc2, if_neg hc3, if_neg hc4, if_pos hc5]
                · rw [final_error_cons_false r.error arg rest hinv]; exact herr
              · by_cases hc6 : trim_dashes arg = "E" ∨ trim_dashes arg = "show-ends"
                · have hinv : is_invalid_flag arg = false := by
                    apply invalid_flag_false_of_recognized
                    rcases hc6 with h | h <;> rw [h] <;> decide
                  obtain ⟨r2, heq, herr⟩ :=
                    ih { r with flags := { r.flags with show_ends := true } } hexr
                  refine ⟨r2, ?_, ?_⟩
                  · rw [← heq]; simp only [parse_loop]
                    rw [if_neg hc0, if_pos hc1, if_neg hc2, if_neg hc3, if_neg hc4,
                      if_neg hc5, if_pos hc6]
                  · rw [final_error_cons_false r.error arg rest hinv]; exact herr
                · by_cases hc7 : trim_dashes arg = "v" ∨ trim_dashes arg = "show-nonprinting"
                  · have hinv : is_invalid_flag arg = false := by
                      apply invalid_flag_false_of_recognized
                      rcases hc7 with h | h <;> rw [h] <;> decide
                    obtain ⟨r2, heq, herr⟩ :=
                      ih { r with flags := { r.flags with show_nonprinting := true } } hexr
                    refine ⟨r2, ?_, ?_⟩
                    · rw [← heq]; simp only [parse_loop]
                      rw [if_neg hc0, if_pos hc1, if_neg hc2, if_neg hc3, if_neg hc4,
                        if_neg hc5, if_neg hc6, if_pos hc7]
                    · rw [final_error_cons_false r.error arg rest hinv]; exact herr
                  · by_cases hc8 : trim_dashes arg = "h" ∨ trim_dashes arg = "help"
                    · exfalso
                      have hexit : is_exit_flag arg = true := by
                        unfold is_exit_flag
                        rw [hft]
                        rcases hc8 with h | h <;> rw [h] <;> decide
                      rw [hexa] at hexit
                      exact Bool.noConfusion hexit
                    · by_cases hc9 : trim_dashes arg = "version"
                      · exfalso
                        have hexit : is_exit_flag arg = true := by
                          unfold is_exit_flag
                          rw [hft, hc9]
                          decide
                        rw [hexa] at hexit
                        exact Bool.noConfusion hexit
                      · have hrecf : is_recognized (trim_dashes arg) = false := by
                          unfold is_recognized
                          simp only [Bool.or_eq_false_iff, beq_eq_false_iff_ne]
                          push_neg at hc2 hc3 hc4 hc5 hc6 hc7 hc8
                          tauto
                        have hinv : is_invalid_flag arg = true := by
                          unfold is_invalid_flag
                          rw [hft, hrecf]
                          rfl
                        obtain ⟨r2, heq, herr⟩ := ih { r with error := some (RatError.mk RatErrorType.InvalidFlag (invalid_flag_msg (trim_dashes arg))) } hexr
                        refine ⟨r2, ?_, ?_⟩
                        · rw [← heq]; simp only [parse_loop]
                          rw [if_neg hc0, if_pos hc1, if_neg hc2, if_neg hc3, if_neg hc4,
                            if_neg hc5, if_neg hc6, if_neg hc7, if_neg hc8, if_neg hc9]
                        · rw [final_error_cons_true r.error arg rest hinv]; exact herr
      · have hor : (str_starts_with arg "-" || str_starts_with arg "--") = false :=
          Bool.eq_false_iff.mpr hc1
        have hinv : is_invalid_flag arg = false := by
          unfold is_invalid_flag is_flag_token
          rw [hor, Bool.and_false, Bool.false_and]
        obtain ⟨r2, heq, herr⟩ := ih { r with paths := r.paths ++ [arg] } hexr
        refine ⟨r2, ?_, ?_⟩
        · rw [← heq]; simp only [parse_loop]; rw [if_neg hc0, if_neg hc1]
        · rw [final_error_cons_false r.error arg rest hinv]; exact herr

/-- Claim C5 (amended): for an argument list that contains at least one
    unrecognized flag token and no help or version flag (those exit the
    process on sight, swallowing any stored error), the run exits having
    written nothing to standard output and exactly the invalid-flag
    message for the last unrecognized token plus the usage hint to the
    error stream; no transformation output is produced. -/
theorem C5_invalid_flag_reported (fs : String → Except (List Char) (List Char))
    (argv : List String)
    (hex : ∀ a ∈ argv.drop 1, is_exit_flag a = false)
    (tok : String)
    (hlast : ((argv.drop 1).filter is_invalid_flag).getLast? = some tok) :
    rat_main fs argv
      = ProcResult.exited [] [invalid_flag_msg (trim_dashes tok), help_hint] 0 := by
  obtain ⟨r2, heq, herr⟩ := parse_loop_no_exit (argv.drop 1) RatArgs.new hex
  have herr2 : r2.error
      = some ⟨RatErrorType.InvalidFlag, invalid_flag_msg (trim_dashes tok)⟩ := by
    rw [herr]
    unfold final_error
    rw [hlast]
  have hmain : rat_main fs argv
      = (match r2.error with
          | some e => ProcResult.exited [] (handle_error e) 0
          | none => choose_your_adventure fs r2) := by
    unfold rat_main RatArgs.parse
    rw [heq]
  rw [hmain, herr2]
  simp [handle_error]

theorem C5_witness :
    rat_main fs0 ["rat", "--bogus"]
      = ProcResult.exited [] [invalid_flag_msg (trim_dashes "--bogus"), help_hint] 0 :=
  C5_invalid_flag_reported fs0 ["rat", "--bogus"] (by decide) "--bogus" (by decide)

/-- Claim C5 counterexample: the argument list rat, bogus-flag, help-flag
    contains an unrecognized flag, yet the run reports no error at all:
    the help flag exits the process first, printing only the usage line
    and leaving the error stream empty. -/
theorem C5_cex_help_swallows_error :
    is_invalid_flag "--bogus" = true
    ∧ rat_main fs0 ["rat", "--bogus", "--help"] = ProcResult.exited [usage_line] [] 0 :=
  ⟨by decide, by decide⟩

/-- Claim C7: the code violates the claim: on an invalid flag `main`
    merely prints the message and hint and returns normally, so the
    process terminates with exit status 0, not a non-zero status. -/
theorem C7_invalid_flag_exits_zero :
    rat_main fs0 ["rat", "--bogus"]
      = ProcResult.exited []
          (handle_error ⟨RatErrorType.InvalidFlag, invalid_flag_msg "bogus"⟩) 0 := by
  decide

end RatCli
